import Mathlib

/-!
Shallow embedding of `square_images.py` (photo-book square-image tool).

Text is modelled as `List Char` (Python `str` is a sequence of code points).
Pixel widths returned by the font measurement collaborator
(`draw.textlength`) are modelled as natural numbers; the fixed font is
abstracted into an arbitrary measurement function that is passed explicitly.
-/

namespace SquareImages

abbrev Text := List Char

/-- Configuration constant `OUTPUT_SIZE = 2048` from the source. -/
def OUTPUT_SIZE : ℕ := 2048

/-- Configuration constant `BLUR_RADIUS = 60` from the source. -/
def BLUR_RADIUS : ℕ := 60

/-- Configuration constant `TEXT_MARGIN = 24` from the source. -/
def TEXT_MARGIN : ℕ := 24

/-- The value of `int(OUTPUT_SIZE * 0.7)` computed in `process_image` from
the configured max-text-width ratio: the IEEE-double product is
`1433.5999...`, truncated by `int` to `1433`. -/
def max_width : ℕ := 1433

/-- The separator string `" — "` appearing in the f-string
`f"{date} — {city}"` (em dash between spaces). -/
def sepText : Text := [' ', '—', ' ']

/-- The candidate `f"{date} — {city}"` built at the top of `clamp_city`. -/
def mkBase (date city : Text) : Text := date ++ sepText ++ city

/-- A truncated candidate `f"{date} — {trimmed}{ellipsis}"` with
`ellipsis = "…"` built inside the `while` loop of `clamp_city`. -/
def mkCand (date trimmed : Text) : Text := date ++ sepText ++ trimmed ++ ['…']

/-- The `while len(trimmed) > 1` loop of `clamp_city`: drop the final
character of `trimmed`, rebuild the candidate, return it if it measures
within `maxW`, otherwise continue; when the length reaches 1, fall through
to `return date`. -/
def clampCityLoop (measure : Text → ℕ) (maxW : ℕ) (date trimmed : Text) : Text :=
  if 1 < trimmed.length then
    if measure (mkCand date trimmed.dropLast) ≤ maxW then mkCand date trimmed.dropLast
    else clampCityLoop measure maxW date trimmed.dropLast
  else date
termination_by trimmed.length
decreasing_by
  rw [List.length_dropLast]; omega

/-- `clamp_city(draw, date, city, max_width)` from the source, with the
drawing context replaced by its measurement function. -/
def clamp_city (measure : Text → ℕ) (date city : Text) (maxW : ℕ) : Text :=
  if measure (mkBase date city) ≤ maxW then mkBase date city
  else clampCityLoop measure maxW date city

/-- Number of iterations the `while` loop of `clamp_city` executes
(an iteration that finds a fitting candidate and returns still counts). -/
def clampCityIters (measure : Text → ℕ) (maxW : ℕ) (date trimmed : Text) : ℕ :=
  if 1 < trimmed.length then
    if measure (mkCand date trimmed.dropLast) ≤ maxW then 1
    else 1 + clampCityIters measure maxW date trimmed.dropLast
  else 0
termination_by trimmed.length
decreasing_by
  rw [List.length_dropLast]; omega

/-- The successive values taken by `trimmed` inside the loop, in order:
`city[:-1]`, `city[:-2]`, ..., down to the one-character truncation. -/
def trimSeq (trimmed : Text) : List Text :=
  if 1 < trimmed.length then trimmed.dropLast :: trimSeq trimmed.dropLast
  else []
termination_by trimmed.length
decreasing_by
  rw [List.length_dropLast]; omega

/-- Python truthiness of an optional string: `None` and `""` are falsy. -/
def truthyOpt : Option Text → Bool
  | none => false
  | some s => !s.isEmpty

/-- Lines 148-151 of the source: `text = clamp_city(draw, label[0], label[1],
max_width) if label[1] else label[0]` (the `if label[1]:` test is Python
truthiness, so an absent or empty city yields the date unchanged). -/
def labelText (measure : Text → ℕ) (date : Text) (city : Option Text) (maxW : ℕ) : Text :=
  match city with
  | some c => if c.isEmpty then date else clamp_city measure date c maxW
  | none => date

/-- The image operations performed by `process_image`, as a term recording
each call: PIL `resize`, `GaussianBlur` filter, in-place `paste` at an
offset, and `ImageDraw.text` at a position. `source` is the opened image
converted to RGB, of the given pixel dimensions. -/
inductive Canvas where
  | source (w h : ℕ)
  | resize (c : Canvas) (w h : ℕ)
  | blur (c : Canvas) (radius : ℕ)
  | paste (c : Canvas) (img : Canvas) (x y : ℕ)
  | drawText (c : Canvas) (x y : ℤ) (text : Text)
deriving DecidableEq

/-- Pixel dimensions of a canvas: `resize` sets them, `blur` keeps them,
`paste` and `drawText` mutate in place without changing them. -/
def Canvas.size : Canvas → ℕ × ℕ
  | .source w h => (w, h)
  | .resize _ w h => (w, h)
  | .blur c _ => c.size
  | .paste c _ _ _ => c.size
  | .drawText c _ _ _ => c.size

/-- The offset of the (single) `paste` call recorded in a canvas term. -/
def Canvas.pasteOffset : Canvas → Option (ℕ × ℕ)
  | .source _ _ => none
  | .resize c _ _ => c.pasteOffset
  | .blur c _ => c.pasteOffset
  | .paste _ _ x y => some (x, y)
  | .drawText c _ _ _ => c.pasteOffset

/-- The image pasted by the (single) `paste` call recorded in a canvas term. -/
def Canvas.pastedImage : Canvas → Option Canvas
  | .source _ _ => none
  | .resize c _ _ => c.pastedImage
  | .blur c _ => c.pastedImage
  | .paste _ img _ _ => some img
  | .drawText c _ _ _ => c.pastedImage

/-- The dimensions of the innermost `resize` in a canvas term — the size at
which the square background was first built. -/
def Canvas.innerResize : Canvas → Option (ℕ × ℕ)
  | .source _ _ => none
  | .resize c w h => some ((c.innerResize).getD (w, h))
  | .blur c _ => c.innerResize
  | .paste c _ _ _ => c.innerResize
  | .drawText c _ _ _ => c.innerResize

/-- Whether any text was ever drawn on the canvas. -/
def Canvas.hasDraw : Canvas → Bool
  | .source _ _ => false
  | .resize c _ _ => c.hasDraw
  | .blur c _ => c.hasDraw
  | .paste c img _ _ => c.hasDraw || img.hasDraw
  | .drawText _ _ _ _ => true

/-- The outermost `ImageDraw.text` call of a canvas term: its position and
the text drawn, if any. -/
def Canvas.drawCall : Canvas → Option ((ℤ × ℤ) × Text)
  | .drawText _ x y t => some ((x, y), t)
  | _ => none

/-- Lines 117-127 of the source: open the image (dimensions `w × h`),
compute `square_size = max(w, h)`, resize the source to
`square_size × square_size`, Gaussian-blur it, paste the unscaled original
at `((square_size - w) // 2, (square_size - h) // 2)`, and resize the
composite to `OUTPUT_SIZE × OUTPUT_SIZE` before any text is drawn. -/
def compositeCanvas (w h : ℕ) : Canvas :=
  let square_size := max w h
  let bg := Canvas.resize (Canvas.source w h) square_size square_size
  let bg := Canvas.blur bg BLUR_RADIUS
  let bg := Canvas.paste bg (Canvas.source w h) ((square_size - w) / 2) ((square_size - h) / 2)
  Canvas.resize bg OUTPUT_SIZE OUTPUT_SIZE

/-- `process_image` from the source, with the per-file I/O abstracted away:
`w × h` are the dimensions of the opened image, `measure` is the fixed
font's `draw.textlength`, `ascent`/`descent` its `FONT.getmetrics()`, and
`date`/`city` are the results of `exif_date`/`exif_city` (`none` also covers
an exception while loading the EXIF block, which leaves `label = None`). -/
def process_image (w h : ℕ) (measure : Text → ℕ) (ascent descent : ℕ)
    (date city : Option Text) : Canvas :=
  let bg := compositeCanvas w h
  let label : Option (Text × Option Text) :=
    match date with
    | some d =>
      if d.isEmpty then none
      else if truthyOpt city then some (d, city) else some (d, none)
    | none => none
  match label with
  | none => bg
  | some (d, c) =>
    let text := labelText measure d c max_width
    Canvas.drawText bg
      ((OUTPUT_SIZE : ℤ) - (measure text : ℤ) - (TEXT_MARGIN : ℤ))
      ((OUTPUT_SIZE : ℤ) - ((ascent : ℤ) + (descent : ℤ)) - (TEXT_MARGIN : ℤ))
      text

/-- An EXIF rational triple (degrees, minutes, seconds), each component a
(numerator, denominator) pair of integers. -/
abbrev DMS := (ℤ × ℤ) × (ℤ × ℤ) × (ℤ × ℤ)

/-- `dms_to_deg(dms, ref)` from the source. Python float division is
modelled exactly over ℚ. The hemisphere reference is the decoded byte
string, compared against the list `[b"S", b"W"]` as in the source. -/
def dms_to_deg (dms : DMS) (ref : Text) : ℚ :=
  let deg : ℚ := (dms.1.1 : ℚ) / (dms.1.2 : ℚ)
  let minutes : ℚ := (dms.2.1.1 : ℚ) / (dms.2.1.2 : ℚ)
  let sec : ℚ := (dms.2.2.1 : ℚ) / (dms.2.2.2 : ℚ)
  let value := deg + minutes / 60 + sec / 3600
  if ref ∈ ([['S'], ['W']] : List Text) then -value else value

/-- The `address` record of a reverse-geocoding response: each key may be
absent (`none`) or present with any string value, including the empty
string. -/
structure Address where
  city : Option Text
  town : Option Text
  village : Option Text

/-- A reverse-geocoding response object: `address = none` models a raw
response without an `address` key. -/
structure Location where
  address : Option Address

/-- Python `a or b` restricted to optional strings: returns `a` when `a` is
truthy (present and non-empty), otherwise returns `b` unchanged. -/
def pyOrText (a b : Option Text) : Option Text :=
  match a with
  | some s => if s.isEmpty then b else some s
  | none => b

/-- Whether any denominator of a DMS triple is zero, in which case the
float divisions in `dms_to_deg` raise `ZeroDivisionError` (caught by the
`except` in `exif_city`). -/
def hasZeroDenom (dms : DMS) : Bool :=
  dms.1.2 == 0 || dms.2.1.2 == 0 || dms.2.2.2 == 0

/-- `exif_city(exif)` from the source. The geocoding collaborator is the
pair of `geolocatorPresent` (the conditional import succeeded) and
`reverse` (the `geolocator.reverse` call at the fixed locale and zoom;
`Except.error` models a raised exception such as a network failure, and
`Except.ok none` a `None` response). The four GPS fields are `none` when
absent from the GPS IFD, which raises `KeyError` in the source (caught). -/
def exif_city (geolocatorPresent : Bool)
    (reverse : ℚ → ℚ → Except Unit (Option Location))
    (lat? : Option DMS) (latRef? : Option Text)
    (lon? : Option DMS) (lonRef? : Option Text) : Option Text :=
  if geolocatorPresent = false then none
  else
    match lat?, latRef?, lon?, lonRef? with
    | some lat, some latRef, some lon, some lonRef =>
      if hasZeroDenom lat || hasZeroDenom lon then none
      else
        match reverse (dms_to_deg lat latRef) (dms_to_deg lon lonRef) with
        | .error _ => none
        | .ok none => none
        | .ok (some loc) =>
          match loc.address with
          | none => none
          | some addr => pyOrText addr.city (pyOrText addr.town addr.village)
    | _, _, _, _ => none

/-- An optional string filtered to be present and non-empty. -/
def nonEmptyOpt (o : Option Text) : Option Text :=
  match o with
  | some s => if s.isEmpty then none else some s
  | none => none

/-- The first field among city, town, village that is present and
non-empty, in that priority order. -/
def firstNonEmptyField (a : Address) : Option Text :=
  match nonEmptyOpt a.city with
  | some s => some s
  | none =>
    match nonEmptyOpt a.town with
    | some s => some s
    | none => nonEmptyOpt a.village

/-- The amended contract for city extraction, written from the spec words
with the minimal change the code forces: the first non-empty field among
city, town, village is returned; when no field is non-empty, the raw
village field is returned verbatim (absent gives `None`, but a present
empty string gives the empty string); every failure path — collaborator
absent, GPS field missing, zero denominator, lookup error, no location, no
address — gives `None`. -/
def cityContract (geolocatorPresent : Bool)
    (reverse : ℚ → ℚ → Except Unit (Option Location))
    (lat? : Option DMS) (latRef? : Option Text)
    (lon? : Option DMS) (lonRef? : Option Text) : Option Text :=
  if geolocatorPresent = false then none
  else
    match lat?, latRef?, lon?, lonRef? with
    | some lat, some latRef, some lon, some lonRef =>
      if hasZeroDenom lat || hasZeroDenom lon then none
      else
        match reverse (dms_to_deg lat latRef) (dms_to_deg lon lonRef) with
        | .error _ => none
        | .ok none => none
        | .ok (some loc) =>
          match loc.address with
          | none => none
          | some addr =>
            match firstNonEmptyField addr with
            | some s => some s
            | none => addr.village
    | _, _, _, _ => none

/-- A concrete geocoding collaborator whose response has only a `village`
key holding the empty string. -/
def cexReverse : ℚ → ℚ → Except Unit (Option Location) :=
  fun _ _ => .ok (some ⟨some ⟨none, none, some []⟩⟩)

/-- A concrete valid DMS triple (52 degrees, 0 minutes, 0 seconds). -/
def cexDMS : DMS := ((52, 1), (0, 1), (0, 1))

/-- Numeric value of an ASCII digit character. -/
def digitVal (c : Char) : ℕ := c.toNat - 48

/-- The regex class `\d` (ASCII digits; the embedding restricts the
engine's Unicode digit support to ASCII, which is all EXIF timestamps
contain). -/
def isDigitChar (c : Char) : Bool :=
  decide (48 ≤ c.toNat) && decide (c.toNat ≤ 57)

/-- The digit class `[lo-hi]` for digit values `lo..hi`. -/
def inDigitRange (lo hi : ℕ) (c : Char) : Bool :=
  decide (48 + lo ≤ c.toNat) && decide (c.toNat ≤ 48 + hi)

/-- The regex class `\s` as matched by CPython on ASCII text:
space, tab, newline, carriage return, vertical tab, form feed. -/
def isSpaceChar (c : Char) : Bool :=
  decide (c.toNat = 32) || decide (c.toNat = 9) || decide (c.toNat = 10) ||
  decide (c.toNat = 13) || decide (c.toNat = 11) || decide (c.toNat = 12)

/-- An alternation branch `F[lo-hi]`: a fixed tens character followed by a
units digit in `lo..hi`, yielding `base` plus the units digit. -/
def twoDigitAlt (first : Char) (lo hi base : ℕ) : Text → List (ℕ × Text)
  | c1 :: c2 :: r =>
    if decide (c1 = first) && inDigitRange lo hi c2 then [(base + digitVal c2, r)] else []
  | _ => []

/-- An alternation branch `[lo-hi]\d`: a tens digit in `lo..hi` followed by
any digit. -/
def tensDigitAlt (lo hi : ℕ) : Text → List (ℕ × Text)
  | c1 :: c2 :: r =>
    if inDigitRange lo hi c1 && isDigitChar c2 then
      [(10 * digitVal c1 + digitVal c2, r)]
    else []
  | _ => []

/-- An alternation branch `[lo-hi]`: a single digit in `lo..hi`. -/
def oneDigitAlt (lo hi : ℕ) : Text → List (ℕ × Text)
  | c :: r => if inDigitRange lo hi c then [(digitVal c, r)] else []
  | _ => []

/-- The `%Y` pattern `\d\d\d\d`: exactly four digits. -/
def matchYear : Text → Option (ℕ × Text)
  | c1 :: c2 :: c3 :: c4 :: r =>
    if isDigitChar c1 && isDigitChar c2 && isDigitChar c3 && isDigitChar c4 then
      some (1000 * digitVal c1 + 100 * digitVal c2 + 10 * digitVal c3 + digitVal c4, r)
    else none
  | _ => none

/-- The `%m` pattern `1[0-2]|0[1-9]|[1-9]`, branches in regex order. -/
def matchMonth (s : Text) : List (ℕ × Text) :=
  twoDigitAlt '1' 0 2 10 s ++ twoDigitAlt '0' 1 9 0 s ++ oneDigitAlt 1 9 s

/-- The `%d` pattern `3[01]|[12]\d|0[1-9]|[1-9]`, branches in regex order. -/
def matchDay (s : Text) : List (ℕ × Text) :=
  twoDigitAlt '3' 0 1 30 s ++ tensDigitAlt 1 2 s ++ twoDigitAlt '0' 1 9 0 s ++
    oneDigitAlt 1 9 s

/-- The `%H` pattern `2[0-3]|[0-1]\d|\d`, branches in regex order. -/
def matchHour (s : Text) : List (ℕ × Text) :=
  twoDigitAlt '2' 0 3 20 s ++ tensDigitAlt 0 1 s ++ oneDigitAlt 0 9 s

/-- The `%M` (and `%S` middle) pattern `[0-5]\d|\d`, branches in regex
order. -/
def matchMinute (s : Text) : List (ℕ × Text) :=
  tensDigitAlt 0 5 s ++ oneDigitAlt 0 9 s

/-- The `%S` pattern `6[0-1]|[0-5]\d|\d` (leap seconds pass the regex but
are rejected later by the `datetime` constructor). -/
def matchSecond (s : Text) : List (ℕ × Text) :=
  twoDigitAlt '6' 0 1 60 s ++ tensDigitAlt 0 5 s ++ oneDigitAlt 0 9 s

/-- The literal `:` of the format string. -/
def expectColon : Text → Option Text
  | c :: r => if c = ':' then some r else none
  | [] => none

/-- Remaining text after greedily consuming whitespace. -/
def eatSpacesRest : Text → Text
  | c :: r => if isSpaceChar c then eatSpacesRest r else c :: r
  | [] => []

/-- The `\s+` that CPython substitutes for the literal space of the format
string: one or more whitespace characters. Maximal munch is exact here
because the following token (`%H`) can only start with a digit. -/
def eatSpaces1 : Text → Option Text
  | c :: r => if isSpaceChar c then some (eatSpacesRest r) else none
  | [] => none

/-- The six fields of the `datetime` produced by `strptime`. -/
structure DT where
  year : ℕ
  month : ℕ
  day : ℕ
  hour : ℕ
  minute : ℕ
  second : ℕ
deriving DecidableEq

/-- The full-anchored regex match of `"%Y:%m:%d %H:%M:%S"` over the input,
with the backtracking alternation semantics of the `re` engine
(`findSome?` tries each branch in order and lets the rest of the pattern
veto it), followed by `int()` conversion of each captured group. -/
def strptimeMatch (s : Text) : Option DT :=
  (matchYear s).bind fun py =>
  (expectColon py.2).bind fun s2 =>
  (matchMonth s2).findSome? fun p =>
  (expectColon p.2).bind fun s3 =>
  (matchDay s3).findSome? fun q =>
  (eatSpaces1 q.2).bind fun s4 =>
  (matchHour s4).findSome? fun u =>
  (expectColon u.2).bind fun s5 =>
  (matchMinute s5).findSome? fun w =>
  (expectColon w.2).bind fun s6 =>
  (matchSecond s6).findSome? fun z =>
  if z.2 = [] then some ⟨py.1, p.1, q.1, u.1, w.1, z.1⟩ else none

/-- Gregorian leap-year rule used by `datetime`. -/
def isLeapYear (y : ℕ) : Bool :=
  (decide (y % 4 = 0) && !decide (y % 100 = 0)) || decide (y % 400 = 0)

/-- Days in a month as validated by the `datetime` constructor. -/
def daysInMonth (y m : ℕ) : ℕ :=
  if m = 2 then (if isLeapYear y then 29 else 28)
  else if m = 4 ∨ m = 6 ∨ m = 9 ∨ m = 11 then 30
  else 31

/-- `datetime.strptime(raw, "%Y:%m:%d %H:%M:%S")`: the regex match above
followed by the range validation the `datetime` constructor performs
(year at least 1, day within the month, second at most 59; the remaining
fields are already constrained by their patterns). `none` models a raised
`ValueError`, caught by `exif_date`. -/
def strptime_YmdHMS (s : Text) : Option DT :=
  match strptimeMatch s with
  | none => none
  | some dt =>
    if 1 ≤ dt.year ∧ dt.day ≤ daysInMonth dt.year dt.month ∧ dt.second ≤ 59 then
      some dt
    else none

/-- The fixed 12-entry Dutch month-abbreviation table `MONTHS_NL`;
a key outside 1..12 raises `KeyError` (caught by `exif_date`). -/
def MONTHS_NL : ℕ → Option Text
  | 1 => some ("jan".toList)
  | 2 => some ("feb".toList)
  | 3 => some ("mrt".toList)
  | 4 => some ("apr".toList)
  | 5 => some ("mei".toList)
  | 6 => some ("jun".toList)
  | 7 => some ("jul".toList)
  | 8 => some ("aug".toList)
  | 9 => some ("sep".toList)
  | 10 => some ("okt".toList)
  | 11 => some ("nov".toList)
  | 12 => some ("dec".toList)
  | _ => none

/-- `exif_date(exif)` from the source: the `DateTimeOriginal` field decoded
to a string (`none` also models a missing field or an undecodable byte
string), parsed with `strptime`, then formatted as
`f"{dt.day} {MONTHS_NL[dt.month]}"`; every failure yields `None`. -/
def exif_date (raw? : Option Text) : Option Text :=
  match raw? with
  | none => none
  | some raw =>
    match strptime_YmdHMS raw with
    | none => none
    | some dt =>
      match MONTHS_NL dt.month with
      | none => none
      | some mn => some ((Nat.repr dt.day).toList ++ ' ' :: mn)

/-- A concrete measurement function used to instantiate theorems:
each character one pixel wide (a monospace font of width 1). -/
def lenMeasure : Text → ℕ := fun t => t.length

/-- The loop either returns a candidate that measures within the budget or
falls through to the date. -/
theorem clampCityLoop_spec (m : Text → ℕ) (w : ℕ) (d t : Text) :
    m (clampCityLoop m w d t) ≤ w ∨ clampCityLoop m w d t = d := by
  generalize hn : t.length = n
  induction n using Nat.strong_induction_on generalizing t with
  | _ n ih =>
    rw [clampCityLoop]
    split
    · rename_i hlen
      split
      · rename_i hfit; exact Or.inl hfit
      · exact ih (n - 1) (by omega) t.dropLast (by rw [List.length_dropLast, hn])
    · exact Or.inr rfl

/-- The loop returns either a truncated candidate or the date itself. -/
theorem clampCityLoop_shape (m : Text → ℕ) (w : ℕ) (d t : Text) :
    (∃ s, clampCityLoop m w d t = mkCand d s) ∨ clampCityLoop m w d t = d := by
  generalize hn : t.length = n
  induction n using Nat.strong_induction_on generalizing t with
  | _ n ih =>
    rw [clampCityLoop]
    split
    · split
      · exact Or.inl ⟨_, rfl⟩
      · exact ih (n - 1) (by omega) t.dropLast (by rw [List.length_dropLast, hn])
    · exact Or.inr rfl

/-- Claim C1: for every measurement function, date, city and width budget,
`clamp_city` returns either a string measuring at most `maxW` or exactly the
date string, and (being a total function, it cannot raise) its result is
never empty when the date is non-empty. -/
theorem clamp_city_fits_or_date (m : Text → ℕ) (d c : Text) (w : ℕ) :
    (m (clamp_city m d c w) ≤ w ∨ clamp_city m d c w = d)
    ∧ (d ≠ [] → clamp_city m d c w ≠ []) := by
  constructor
  · unfold clamp_city
    split
    · rename_i h; exact Or.inl h
    · exact clampCityLoop_spec m w d c
  · intro hd
    unfold clamp_city
    split
    · simp [mkBase, sepText]
    · rcases clampCityLoop_shape m w d c with ⟨s, hs⟩ | hs
      · rw [hs]; simp [mkCand, sepText]
      · rw [hs]; exact hd

/-- Witness for claim C1 at a concrete input. -/
theorem clamp_city_fits_or_date_witness :
    (lenMeasure (clamp_city lenMeasure ['5'] ['a', 'b', 'c'] 6) ≤ 6 ∨
      clamp_city lenMeasure ['5'] ['a', 'b', 'c'] 6 = ['5'])
    ∧ clamp_city lenMeasure ['5'] ['a', 'b', 'c'] 6 ≠ [] :=
  ⟨(clamp_city_fits_or_date lenMeasure ['5'] ['a', 'b', 'c'] 6).1,
   (clamp_city_fits_or_date lenMeasure ['5'] ['a', 'b', 'c'] 6).2 (by decide)⟩

/-- The loop is the first-fit search over the successive truncations. -/
theorem clampCityLoop_eq_find (m : Text → ℕ) (w : ℕ) (d t : Text) :
    clampCityLoop m w d t =
      (((trimSeq t).map (mkCand d)).find? (fun s => decide (m s ≤ w))).getD d := by
  generalize hn : t.length = n
  induction n using Nat.strong_induction_on generalizing t with
  | _ n ih =>
    rw [clampCityLoop, trimSeq]
    by_cases hlen : 1 < t.length
    · rw [if_pos hlen, if_pos hlen, List.map_cons]
      by_cases hfit : m (mkCand d t.dropLast) ≤ w
      · rw [if_pos hfit, List.find?_cons_of_pos _ (by simpa using hfit), Option.getD_some]
      · rw [if_neg hfit, List.find?_cons_of_neg _ (by simpa using hfit)]
        exact ih (n - 1) (by omega) t.dropLast (by rw [List.length_dropLast, hn])
    · rw [if_neg hlen, if_neg hlen]
      simp

/-- Successive truncations each drop exactly the final character, so their
lengths strictly decrease by one. -/
theorem trimSeq_chain (c : Text) :
    List.Chain' (fun a b => b = a.dropLast ∧ a.length = b.length + 1) (c :: trimSeq c) := by
  generalize hn : c.length = n
  induction n using Nat.strong_induction_on generalizing c with
  | _ n ih =>
    rw [trimSeq]
    split
    · rename_i hlen
      rw [List.chain'_cons]
      refine ⟨⟨rfl, ?_⟩, ?_⟩
      · rw [List.length_dropLast]; omega
      · exact ih (n - 1) (by omega) c.dropLast (by rw [List.length_dropLast, hn])
    · simp

/-- Claim C3: when the full composition does not fit, `clamp_city` returns
the first fitting candidate among the truncations (falling back to the date
when none fits), and the successive truncated cities shrink by exactly one
character from the end per step, so their character counts strictly
decrease and the city never regrows. -/
theorem clamp_city_first_fit (m : Text → ℕ) (d c : Text) (w : ℕ)
    (h : ¬ m (mkBase d c) ≤ w) :
    clamp_city m d c w =
      (((trimSeq c).map (mkCand d)).find? (fun s => decide (m s ≤ w))).getD d
    ∧ List.Chain' (fun a b => b = a.dropLast ∧ a.length = b.length + 1) (c :: trimSeq c) := by
  refine ⟨?_, trimSeq_chain c⟩
  unfold clamp_city
  rw [if_neg h]
  exact clampCityLoop_eq_find m w d c

/-- Witness for claim C3 at a concrete input whose base does not fit. -/
theorem clamp_city_first_fit_witness :
    (¬ lenMeasure (mkBase ['5'] ['a', 'b', 'c']) ≤ 6) ∧
    (clamp_city lenMeasure ['5'] ['a', 'b', 'c'] 6 =
      (((trimSeq ['a', 'b', 'c']).map (mkCand ['5'])).find?
        (fun s => decide (lenMeasure s ≤ 6))).getD ['5']
     ∧ List.Chain' (fun a b => b = a.dropLast ∧ a.length = b.length + 1)
        (['a', 'b', 'c'] :: trimSeq ['a', 'b', 'c'])) :=
  ⟨by decide, clamp_city_first_fit lenMeasure ['5'] ['a', 'b', 'c'] 6 (by decide)⟩

/-- Claim C10: the truncation loop runs at most `len(city) - 1` iterations. -/
theorem clampCityIters_le (m : Text → ℕ) (w : ℕ) (d c : Text) :
    clampCityIters m w d c ≤ c.length - 1 := by
  generalize hn : c.length = n
  induction n using Nat.strong_induction_on generalizing c with
  | _ n ih =>
    rw [clampCityIters]
    split
    · rename_i hlen
      split
      · omega
      · have := ih (n - 1) (by omega) c.dropLast (by rw [List.length_dropLast, hn])
        omega
    · omega

/-- Claim C4: when the city is absent the label text is the date unchanged,
for every measurement function and every width budget (so no width check can
influence the date-only path). -/
theorem labelText_none_eq_date (m : Text → ℕ) (d : Text) (w : ℕ) :
    labelText m d none w = d := rfl

/-- Claim C2: `process_image` builds the square background at
`square_size = max w h`, pastes the unscaled source centered at floor
offsets `((square_size - w) / 2, (square_size - h) / 2)`, and the final
canvas measures exactly `OUTPUT_SIZE × OUTPUT_SIZE` for every source
aspect ratio and every label outcome. -/
theorem process_image_geometry (w h : ℕ) (m : Text → ℕ) (asc desc : ℕ)
    (date city : Option Text) :
    (process_image w h m asc desc date city).size = (OUTPUT_SIZE, OUTPUT_SIZE)
    ∧ (process_image w h m asc desc date city).pasteOffset =
        some ((max w h - w) / 2, (max w h - h) / 2)
    ∧ (process_image w h m asc desc date city).pastedImage = some (Canvas.source w h)
    ∧ (process_image w h m asc desc date city).innerResize = some (max w h, max w h) := by
  unfold process_image compositeCanvas
  cases date with
  | none =>
    simp [Canvas.size, Canvas.pasteOffset, Canvas.pastedImage, Canvas.innerResize]
  | some d =>
    by_cases hd : d.isEmpty <;> by_cases hc : truthyOpt city <;>
      simp [hd, hc, Canvas.size, Canvas.pasteOffset, Canvas.pastedImage, Canvas.innerResize]

/-- Claim C9: when no capture date was extracted, no label is drawn —
whatever the extracted city is — and the output is exactly the un-labelled
composite canvas, which contains no text-drawing operation. -/
theorem process_image_no_date (w h : ℕ) (m : Text → ℕ) (asc desc : ℕ)
    (city : Option Text) :
    process_image w h m asc desc none city = compositeCanvas w h
    ∧ (process_image w h m asc desc none city).hasDraw = false
    ∧ (compositeCanvas w h).hasDraw = false := by
  refine ⟨rfl, ?_, ?_⟩ <;>
    simp [process_image, compositeCanvas, Canvas.hasDraw]

/-- Claim C8: whenever a label is drawn, it is anchored at
`(OUTPUT_SIZE - text_width - TEXT_MARGIN, OUTPUT_SIZE - (ascent + descent)
- TEXT_MARGIN)`, where the width is the measured width of the drawn text
and the height is the fixed font ascent plus descent. -/
theorem process_image_draw_anchor (w h : ℕ) (m : Text → ℕ) (asc desc : ℕ)
    (d : Text) (city : Option Text) (hd : d ≠ []) :
    (process_image w h m asc desc (some d) city).drawCall =
      some (((OUTPUT_SIZE : ℤ) - (m (labelText m d city max_width) : ℤ) - (TEXT_MARGIN : ℤ),
             (OUTPUT_SIZE : ℤ) - ((asc : ℤ) + (desc : ℤ)) - (TEXT_MARGIN : ℤ)),
            labelText m d city max_width) := by
  have hde : d.isEmpty = false := by simpa [List.isEmpty_iff] using hd
  by_cases hc : truthyOpt city
  · simp [process_image, hde, hc, Canvas.drawCall]
  · have hlt : labelText m d city max_width = d := by
      cases city with
      | none => rfl
      | some s =>
        have hs : s.isEmpty := by simpa [truthyOpt] using hc
        simp [labelText, hs]
    rw [hlt]
    simp [process_image, hde, hc, Canvas.drawCall, labelText]

/-- Witness for claim C8 at a concrete input with a non-empty date. -/
theorem process_image_draw_anchor_witness :
    (process_image 4000 3000 lenMeasure 57 15 (some ['5']) none).drawCall =
      some (((OUTPUT_SIZE : ℤ) - (lenMeasure (labelText lenMeasure ['5'] none max_width) : ℤ)
              - (TEXT_MARGIN : ℤ),
             (OUTPUT_SIZE : ℤ) - ((57 : ℤ) + (15 : ℤ)) - (TEXT_MARGIN : ℤ)),
            labelText lenMeasure ['5'] none max_width) :=
  process_image_draw_anchor 4000 3000 lenMeasure 57 15 ['5'] none (by decide)

/-- Claim C6: for non-zero denominators, `dms_to_deg` computes
`deg + min/60 + sec/3600` from the rational quotients, negated exactly when
the hemisphere reference is `S` or `W`. -/
theorem dms_to_deg_spec (dn dd mn md sn sd : ℤ) (ref : Text)
    (h1 : dd ≠ 0) (h2 : md ≠ 0) (h3 : sd ≠ 0) :
    dms_to_deg ((dn, dd), (mn, md), (sn, sd)) ref =
      (if ref = ['S'] ∨ ref = ['W'] then (-1 : ℚ) else 1) *
        ((dn : ℚ) / (dd : ℚ) + ((mn : ℚ) / (md : ℚ)) / 60 +
          ((sn : ℚ) / (sd : ℚ)) / 3600) := by
  simp only [dms_to_deg]
  by_cases hmem : ref ∈ ([['S'], ['W']] : List Text)
  · have hor : ref = ['S'] ∨ ref = ['W'] := by simpa using hmem
    rw [if_pos hmem, if_pos hor]; ring
  · have hor : ¬ (ref = ['S'] ∨ ref = ['W']) := by simpa using hmem
    rw [if_neg hmem, if_neg hor]; ring

/-- Witness for claim C6 at a concrete southern-hemisphere input. -/
theorem dms_to_deg_spec_witness :
    dms_to_deg ((30, 1), (15, 1), (36, 1)) ['S'] =
      (if (['S'] : Text) = ['S'] ∨ (['S'] : Text) = ['W'] then (-1 : ℚ) else 1) *
        ((30 : ℚ) / (1 : ℚ) + ((15 : ℚ) / (1 : ℚ)) / 60 +
          ((36 : ℚ) / (1 : ℚ)) / 3600) :=
  dms_to_deg_spec 30 1 15 1 36 1 ['S']
    (by decide) (by decide) (by decide)

/-- Counterexample for claim C7 as stated: with the collaborator present, a
valid GPS block, and a successful lookup whose address holds only
`village = ""`, `exif_city` returns the empty string — neither `None` nor a
non-empty field value. -/
theorem exif_city_claim_counterexample :
    ¬ (exif_city true cexReverse (some cexDMS) (some ['N']) (some cexDMS) (some ['E']) = none
       ∨ ∃ s, exif_city true cexReverse (some cexDMS) (some ['N']) (some cexDMS) (some ['E'])
                = some s
              ∧ s ≠ []) := by
  have hres : exif_city true cexReverse (some cexDMS) (some ['N']) (some cexDMS) (some ['E'])
      = some [] := rfl
  simp [hres]

/-- Python `or`-chaining over the three address fields equals the amended
contract: the first non-empty field, else the raw village field. -/
theorem pyOrText_eq_contract (a t v : Option Text) :
    pyOrText a (pyOrText t v) =
      match firstNonEmptyField ⟨a, t, v⟩ with
      | some s => some s
      | none => v := by
  cases a <;> cases t <;> cases v <;>
    simp only [pyOrText, firstNonEmptyField, nonEmptyOpt] <;>
    repeat' split <;> simp_all

/-- Claim C7 (amended): `exif_city` returns the first non-empty of the
city, town, village fields; when no field is non-empty it returns the raw
village field (which may be an empty string); and it returns `None` on
every failure path — collaborator absent, missing GPS field, zero
denominator, lookup exception, no location, no address key — never raising
and never retrying. -/
theorem exif_city_eq_cityContract (g : Bool)
    (reverse : ℚ → ℚ → Except Unit (Option Location))
    (lat? : Option DMS) (latRef? : Option Text)
    (lon? : Option DMS) (lonRef? : Option Text) :
    exif_city g reverse lat? latRef? lon? lonRef? =
      cityContract g reverse lat? latRef? lon? lonRef? := by
  unfold exif_city cityContract
  cases g
  · rfl
  · cases lat? <;> cases latRef? <;> cases lon? <;> cases lonRef? <;> try rfl
    rename_i lat latRef lon lonRef
    by_cases hz : (hasZeroDenom lat || hasZeroDenom lon) = true
    · simp [hz]
    · simp only [Bool.not_eq_true] at hz
      simp only [hz]
      cases hrev : reverse (dms_to_deg lat latRef) (dms_to_deg lon lonRef) with
      | error e => simp
      | ok o =>
        cases o with
        | none => simp
        | some loc =>
          obtain ⟨addr?⟩ := loc
          cases addr? with
          | none => simp
          | some addr =>
            obtain ⟨a, t, v⟩ := addr
            simpa using pyOrText_eq_contract a t v

/-- Any parse produced by a `twoDigitAlt` branch lies in
`base + lo .. base + hi`. -/
theorem mem_twoDigitAlt {first : Char} {lo hi base v : ℕ} {s r : Text}
    (h : (v, r) ∈ twoDigitAlt first lo hi base s) : base + lo ≤ v ∧ v ≤ base + hi := by
  match s with
  | [] => simp [twoDigitAlt] at h
  | [c] => simp [twoDigitAlt] at h
  | c1 :: c2 :: rest =>
    simp only [twoDigitAlt] at h
    split at h
    · rename_i hcond
      simp only [inDigitRange, Bool.and_eq_true, decide_eq_true_eq] at hcond
      simp only [List.mem_singleton, Prod.mk.injEq] at h
      obtain ⟨hv, -⟩ := h
      subst hv
      unfold digitVal
      omega
    · simp at h

/-- Any parse produced by a `oneDigitAlt` branch lies in `lo .. hi`. -/
theorem mem_oneDigitAlt {lo hi v : ℕ} {s r : Text}
    (h : (v, r) ∈ oneDigitAlt lo hi s) : lo ≤ v ∧ v ≤ hi := by
  match s with
  | [] => simp [oneDigitAlt] at h
  | c :: rest =>
    simp only [oneDigitAlt] at h
    split at h
    · rename_i hcond
      simp only [inDigitRange, Bool.and_eq_true, decide_eq_true_eq] at hcond
      simp only [List.mem_singleton, Prod.mk.injEq] at h
      obtain ⟨hv, -⟩ := h
      subst hv
      unfold digitVal
      omega
    · simp at h

/-- Every month the `%m` pattern can produce lies in `1..12`. -/
theorem mem_matchMonth {v : ℕ} {s r : Text} (h : (v, r) ∈ matchMonth s) :
    1 ≤ v ∧ v ≤ 12 := by
  unfold matchMonth at h
  rcases List.mem_append.mp h with h1 | h1
  · rcases List.mem_append.mp h1 with h2 | h2
    · have := mem_twoDigitAlt h2; omega
    · have := mem_twoDigitAlt h2; omega
  · have := mem_oneDigitAlt h1; omega

/-- Inversion for `findSome?`: a successful search exhibits a successful
element. -/
theorem findSome?_exists {α β : Type} {f : α → Option β} {l : List α} {b : β}
    (h : l.findSome? f = some b) : ∃ a ∈ l, f a = some b := by
  induction l with
  | nil => simp [List.findSome?] at h
  | cons a as ih =>
    cases hfa : f a with
    | some b2 =>
      simp only [List.findSome?, hfa, Option.some.injEq] at h
      subst h
      exact ⟨a, List.mem_cons_self a as, hfa⟩
    | none =>
      simp only [List.findSome?, hfa] at h
      obtain ⟨x, hx, hfx⟩ := ih h
      exact ⟨x, List.mem_cons_of_mem a hx, hfx⟩

/-- The month of any successful regex match lies in `1..12`. -/
theorem strptimeMatch_month_range {s : Text} {dt : DT}
    (h : strptimeMatch s = some dt) : 1 ≤ dt.month ∧ dt.month ≤ 12 := by
  unfold strptimeMatch at h
  cases hy : matchYear s with
  | none => rw [hy] at h; simp at h
  | some py =>
    rw [hy] at h
    simp only [Option.some_bind] at h
    cases hc1 : expectColon py.2 with
    | none => rw [hc1] at h; simp at h
    | some s2 =>
      rw [hc1] at h
      simp only [Option.some_bind] at h
      obtain ⟨p, hpmem, hp⟩ := findSome?_exists h
      have hrange := mem_matchMonth (v := p.1) (r := p.2) hpmem
      try dsimp only at hp
      cases hc2 : expectColon p.2 with
      | none => rw [hc2] at hp; simp at hp
      | some s3 =>
        rw [hc2] at hp
        simp only [Option.some_bind] at hp
        obtain ⟨q, -, hq⟩ := findSome?_exists hp
        try dsimp only at hq
        cases hc3 : eatSpaces1 q.2 with
        | none => rw [hc3] at hq; simp at hq
        | some s4 =>
          rw [hc3] at hq
          simp only [Option.some_bind] at hq
          obtain ⟨u, -, hu⟩ := findSome?_exists hq
          try dsimp only at hu
          cases hc4 : expectColon u.2 with
          | none => rw [hc4] at hu; simp at hu
          | some s5 =>
            rw [hc4] at hu
            simp only [Option.some_bind] at hu
            obtain ⟨w, -, hw⟩ := findSome?_exists hu
            try dsimp only at hw
            cases hc5 : expectColon w.2 with
            | none => rw [hc5] at hw; simp at hw
            | some s6 =>
              rw [hc5] at hw
              simp only [Option.some_bind] at hw
              obtain ⟨z, -, hz⟩ := findSome?_exists hw
              try dsimp only at hz
              split at hz
              · injection hz with h2
                rw [← h2]
                exact hrange
              · simp at hz

/-- The month of any successful `strptime` result lies in `1..12`. -/
theorem strptime_month_range {s : Text} {dt : DT}
    (h : strptime_YmdHMS s = some dt) : 1 ≤ dt.month ∧ dt.month ≤ 12 := by
  unfold strptime_YmdHMS at h
  cases hm : strptimeMatch s with
  | none => rw [hm] at h; simp at h
  | some dt2 =>
    rw [hm] at h
    dsimp only at h
    split at h
    · injection h with h2
      exact h2 ▸ strptimeMatch_month_range hm
    · simp at h

/-- The 12-entry month table succeeds on every key in `1..12`. -/
theorem MONTHS_NL_total (m : ℕ) (h1 : 1 ≤ m) (h2 : m ≤ 12) :
    ∃ ab, MONTHS_NL m = some ab := by
  interval_cases m <;> exact ⟨_, rfl⟩

/-- Claim C5: `exif_date` parses the timestamp as `YYYY:MM:DD HH:MM:SS`
and, on success, returns `"{day} {month_abbrev}"` through the fixed
12-entry month table (whose lookup cannot fail, since the parsed month is
within `1..12`); a missing or undecodable field and every parse failure
yield `None`, and no error propagates (the embedding is total). -/
theorem exif_date_spec :
    exif_date none = none
    ∧ (∀ raw : Text, strptime_YmdHMS raw = none → exif_date (some raw) = none)
    ∧ (∀ (raw : Text) (dt : DT), strptime_YmdHMS raw = some dt →
        ∃ ab, MONTHS_NL dt.month = some ab
          ∧ exif_date (some raw) = some ((Nat.repr dt.day).toList ++ ' ' :: ab)) := by
  refine ⟨rfl, ?_, ?_⟩
  · intro raw hp
    simp [exif_date, hp]
  · intro raw dt hp
    obtain ⟨h1, h2⟩ := strptime_month_range hp
    obtain ⟨ab, hab⟩ := MONTHS_NL_total dt.month h1 h2
    exact ⟨ab, hab, by simp [exif_date, hp, hab]⟩

/-- Witness for claim C5 at a concrete parseable timestamp. -/
theorem exif_date_spec_witness :
    ∃ ab, MONTHS_NL (DT.mk 2021 6 5 10 20 30).month = some ab
      ∧ exif_date (some ("2021:06:05 10:20:30".toList))
          = some ((Nat.repr (DT.mk 2021 6 5 10 20 30).day).toList ++ ' ' :: ab) :=
  exif_date_spec.2.2 ("2021:06:05 10:20:30".toList) ⟨2021, 6, 5, 10, 20, 30⟩ (by decide)

end SquareImages
